import Mathlib

/-!
Verification development for the alexa-room-finder skill
(src/lambda/index.js and src/lambda/requesters.js).

Part 1 embeds requesters.js: the availability fan-out
(requesters.findFreeRoom), which registers one HTTP callback per
allow-listed calendar on a single Q deferred, and the request callbacks
of requesters.postRoom / requesters.getCalendars.

Part 2 embeds the dialog controller of index.js: the three handler sets
(sessionHandlers, timeModeHandlers, confirmModeHandlers) as a step
function on session state, together with the helper functions emitAsk,
emitRepeat, emitStartOver, resetAttributes, setDuration and getRoom.
-/

set_option autoImplicit false

/-- A calendar as returned by the directory query: name, id and owning
mailbox (requesters.getCalendars resolves the parsed body's value). -/
structure Calendar where
  id : String
  name : String
  ownerName : String
  ownerAddress : String
deriving Repr, DecidableEq

/-- The JSON object requesters.findFreeRoom resolves with when a calendar
view comes back empty: owner name, owner address and calendar name. -/
structure Creds where
  ownerName : String
  ownerAddress : String
  name : String
deriving Repr, DecidableEq

/-- Embeds the construction of the resolved JSON in findFreeRoom:
ownerName from calendar.owner.name, ownerAddress from
calendar.owner.address, name from calendar.name. -/
def credsOf (c : Calendar) : Creds :=
  ⟨c.ownerName, c.ownerAddress, c.name⟩

/-- Outcome of one calendarView request as seen by findFreeRoom's
callback: a transport error (the err argument), an error object in the
parsed body (parsedBody.error), or a parsed event list
(parsedBody.value). An empty event list means the room is free for the
window; a non-empty list means it is busy. -/
inductive QueryResult where
  | err (e : String)
  | bodyError (msg : String)
  | events (evs : List String)
deriving Repr, DecidableEq

/-- A query result is Free when the parsed value is the empty list
(the callback's test parsedBody.value == '' holds exactly for []). -/
def isFree : QueryResult → Bool
  | .events [] => true
  | _ => false

/-- A query result is Busy when the parsed value is a non-empty event
list: the callback then takes none of its three branches. -/
def isBusy : QueryResult → Bool
  | .events (_ :: _) => true
  | _ => false

/-- The cause the callback would reject with: err for a transport error,
parsedBody.error.message for a body error, nothing for an event list. -/
def errCause : QueryResult → Option String
  | .err e => some e
  | .bodyError m => some m
  | .events _ => none

/-- A settlement of the single Q deferred shared by all the callbacks in
findFreeRoom: deferred.resolve with the room's creds, or deferred.reject
with a cause. -/
inductive Settle where
  | resolved (c : Creds)
  | rejected (cause : String)
deriving Repr, DecidableEq

/-- What one callback invocation does to the deferred, from the body of
findFreeRoom: reject err on a transport error, reject
parsedBody.error.message on a body error, resolve the calendar's creds
on an empty event list, and nothing at all on a non-empty event list. -/
def settleOf (c : Calendar) : QueryResult → Option Settle
  | .err e => some (.rejected e)
  | .bodyError m => some (.rejected m)
  | .events [] => some (.resolved (credsOf c))
  | .events (_ :: _) => none

/-- The final state of the deferred given the callbacks' completion order:
a Q deferred keeps the first settlement and ignores all later resolve and
reject calls, so the outcome is the first callback that settles; none
means no callback ever settles and the promise hangs forever. -/
def firstSettle : List (Calendar × QueryResult) → Option Settle
  | [] => none
  | (c, r) :: rest =>
    match settleOf c r with
    | some s => some s
    | none => firstSettle rest

/-- The first rejection cause in completion order, ignoring Free and Busy
results. -/
def firstError : List (Calendar × QueryResult) → Option String
  | [] => none
  | (_, r) :: rest =>
    match errCause r with
    | some e => some e
    | none => firstError rest

/-- The calendars findFreeRoom issues a calendarView request for: the
loop body runs the request only when the indexOf test
(tilde of namesToFind.indexOf(calendar.name)) is truthy, i.e. exactly
when the calendar's name is a member of namesToFind. -/
def issuedQueries (namesToFind : List String) (parsedCals : List Calendar) : List Calendar :=
  parsedCals.filter (fun c => namesToFind.contains c.name)

/-- Parsed response body as inspected by the postRoom and getCalendars
callbacks: an optional error field (parsedBody.error) and the value
payload. -/
structure ParsedBody where
  error : Option String
  value : List Calendar
deriving Repr, DecidableEq

/-- How one request callback in requesters.js terminates: an uncaught
synchronous exception, a rejection of the deferred with a cause, or a
resolution with a value. -/
inductive CallbackOutcome (α : Type) where
  | thrown
  | rejected (cause : String)
  | resolved (v : α)
deriving Repr, DecidableEq

/-- Embeds the request.post callback in requesters.postRoom. The body is
passed through JSON.parse BEFORE the err argument is inspected
(parsed = none models JSON.parse throwing on a body that is not valid
JSON, e.g. the undefined body accompanying a transport error); only
afterwards does the callback reject on err, reject on parsedBody.error,
or resolve ownerName. -/
def postRoomCallback (err : Option String) (parsed : Option ParsedBody)
    (ownerName : String) : CallbackOutcome String :=
  match parsed with
  | none => .thrown
  | some pb =>
    match err with
    | some e => .rejected e
    | none =>
      match pb.error with
      | some er => .rejected er
      | none => .resolved ownerName

/-- Embeds the request.get callback in requesters.getCalendars, with the
same shape: JSON.parse of the body runs before the err check, then the
callback rejects on err, rejects on parsedBody.error.message, or resolves
parsedBody.value. -/
def getCalendarsCallback (err : Option String) (parsed : Option ParsedBody) :
    CallbackOutcome (List Calendar) :=
  match parsed with
  | none => .thrown
  | some pb =>
    match err with
    | some e => .rejected e
    | none =>
      match pb.error with
      | some er => .rejected er
      | none => .resolved pb.value

/-- Two sample allow-listed calendars for concrete evaluations. -/
def cal1 : Calendar := ⟨"id1", "Room 1", "Owner One", "one@example.com"⟩

/-- Second sample calendar. -/
def cal2 : Calendar := ⟨"id2", "Room 2", "Owner Two", "two@example.com"⟩

/-- Busy results never settle the deferred. -/
theorem settleOf_busy_eq_none (c : Calendar) (r : QueryResult)
    (h : isBusy r = true) : settleOf c r = none := by
  cases r with
  | err e => simp [isBusy] at h
  | bodyError m => simp [isBusy] at h
  | events evs => cases evs with
    | nil => simp [isBusy] at h
    | cons x xs => rfl

/-- If every result in the completion order is Busy, no callback ever
settles the deferred. -/
theorem firstSettle_all_busy
    (evs : List (Calendar × QueryResult))
    (h : ∀ p ∈ evs, isBusy p.2 = true) :
    firstSettle evs = none := by
  induction evs with
  | nil => rfl
  | cons p rest ih =>
    obtain ⟨c, r⟩ := p
    have hb : isBusy r = true := h (c, r) (List.mem_cons_self _ _)
    simp only [firstSettle, settleOf_busy_eq_none c r hb]
    exact ih fun q hq => h q (List.mem_cons_of_mem _ hq)

/-- Helper for C2: if no result in the completion order is Free and at
least one is an Error, the deferred settles as a rejection carrying the
first error in completion order. -/
theorem firstSettle_no_free_with_error
    (evs : List (Calendar × QueryResult))
    (hnf : ∀ p ∈ evs, isFree p.2 = false)
    (he : ∃ p ∈ evs, (errCause p.2).isSome = true) :
    ∃ e, firstError evs = some e ∧ firstSettle evs = some (.rejected e) := by
  induction evs with
  | nil => simp at he
  | cons p rest ih =>
    obtain ⟨c, r⟩ := p
    cases r with
    | err e =>
      exact ⟨e, rfl, rfl⟩
    | bodyError m =>
      exact ⟨m, rfl, rfl⟩
    | events l =>
      cases l with
      | nil =>
        have := hnf (c, .events []) (List.mem_cons_self _ _)
        simp [isFree] at this
      | cons x xs =>
        have hrest : ∃ p ∈ rest, (errCause p.2).isSome = true := by
          obtain ⟨q, hq, hqe⟩ := he
          rcases List.mem_cons.mp hq with hq1 | hq2
          · subst hq1; simp [errCause] at hqe
          · exact ⟨q, hq2, hqe⟩
        obtain ⟨e, h1, h2⟩ := ih (fun q hq => hnf q (List.mem_cons_of_mem _ hq)) hrest
        exact ⟨e, by simpa [firstError, errCause] using h1,
               by simpa [firstSettle, settleOf] using h2⟩

/-- Helper: all-Busy prefix before a Free result: the deferred resolves
with the creds of the calendar whose Free result settles first, whatever
settles afterwards. -/
theorem firstSettle_busy_prefix_free
    (pre post : List (Calendar × QueryResult)) (w : Calendar) (r : QueryResult)
    (hpre : ∀ p ∈ pre, isBusy p.2 = true) (hfree : isFree r = true) :
    firstSettle (pre ++ (w, r) :: post) = some (.resolved (credsOf w)) := by
  induction pre with
  | nil =>
    cases r with
    | err e => simp [isFree] at hfree
    | bodyError m => simp [isFree] at hfree
    | events l =>
      cases l with
      | nil => rfl
      | cons x xs => simp [isFree] at hfree
  | cons p rest ih =>
    obtain ⟨c, q⟩ := p
    have hb : isBusy q = true := hpre (c, q) (List.mem_cons_self _ _)
    simp only [List.cons_append, firstSettle, settleOf_busy_eq_none c q hb]
    exact ih fun p hp => hpre p (List.mem_cons_of_mem _ hp)

/-- Helper: a resolution of the deferred comes from some pair in the
completion order whose callback resolved those very creds. -/
theorem firstSettle_resolved_mem
    (evs : List (Calendar × QueryResult)) (creds : Creds)
    (h : firstSettle evs = some (.resolved creds)) :
    ∃ p ∈ evs, settleOf p.1 p.2 = some (.resolved creds) := by
  induction evs with
  | nil => simp [firstSettle] at h
  | cons p rest ih =>
    obtain ⟨c, r⟩ := p
    simp only [firstSettle] at h
    cases hs : settleOf c r with
    | some s =>
      rw [hs] at h
      exact ⟨(c, r), List.mem_cons_self _ _, by rw [hs, Option.some_inj.mp h]⟩
    | none =>
      rw [hs] at h
      obtain ⟨q, hq, hqs⟩ := ih h
      exact ⟨q, List.mem_cons_of_mem _ hq, hqs⟩

/-- Helper: a callback only ever resolves the creds of its own calendar. -/
theorem settleOf_resolved_eq (c : Calendar) (r : QueryResult) (creds : Creds)
    (h : settleOf c r = some (.resolved creds)) : creds = credsOf c := by
  cases r with
  | err e => simp [settleOf] at h
  | bodyError m => simp [settleOf] at h
  | events l =>
    cases l with
    | nil => simpa [settleOf, eq_comm] using h
    | cons x xs => simp [settleOf] at h

/-- C1: in findFreeRoom, when every issued query settles as Busy (a
non-empty, non-error event list), no callback branch ever settles the
deferred, so the promise never resolves or rejects: the run has no
outcome at all, contradicting the claimed NoneFree result. Evaluated at
the failing input of two allow-listed calendars each reporting one
event. -/
theorem findFreeRoom_all_busy_never_settles :
    firstSettle [(cal1, .events ["meeting"]), (cal2, .events ["meeting"])] = none ∧
    isBusy (.events ["meeting"]) = true := by
  constructor
  · rfl
  · rfl

/-- C2: for every completion order with no Free result and at least one
Error, the deferred rejects with the first error in completion order
(never any other outcome, in particular never a none-free resolution). -/
theorem findFreeRoom_busy_error_fails_first_error
    (evs : List (Calendar × QueryResult))
    (hnf : ∀ p ∈ evs, isFree p.2 = false)
    (he : ∃ p ∈ evs, (errCause p.2).isSome = true) :
    ∃ e, firstError evs = some e ∧ firstSettle evs = some (.rejected e) :=
  firstSettle_no_free_with_error evs hnf he

/-- Witness for C2 at a concrete completion order: Busy settles nothing,
then the error arrives and the deferred rejects with it. -/
theorem findFreeRoom_busy_error_fails_first_error_witness :
    ∃ e, firstError [(cal1, .events ["m"]), (cal2, .err "boom")] = some e ∧
      firstSettle [(cal1, .events ["m"]), (cal2, .err "boom")] = some (.rejected e) :=
  findFreeRoom_busy_error_fails_first_error
    [(cal1, .events ["m"]), (cal2, .err "boom")]
    (by decide) ⟨(cal2, .err "boom"), by decide, by decide⟩

/-- C3 counterexample: a completion order in which an Error settles
before the Free result. The claim demands the outcome Resolved with the
calendar that reported Free; the deferred has already rejected with the
earlier error, so the outcome is a rejection instead. -/
theorem findFreeRoom_error_before_free_rejects :
    isFree (.events []) = true ∧
    firstSettle [(cal1, .err "boom"), (cal2, .events [])] =
      some (.rejected "boom") := by
  constructor
  · rfl
  · rfl

/-- C3 amended: if at least one query returns Free and every result that
settles before the first Free is Busy (no Error settles earlier), the
outcome is Resolved with the calendar whose Free result settles first;
everything settling after that winner, including Errors, is discarded. -/
theorem findFreeRoom_first_free_wins
    (pre post : List (Calendar × QueryResult)) (w : Calendar) (r : QueryResult)
    (hpre : ∀ p ∈ pre, isBusy p.2 = true) (hfree : isFree r = true) :
    firstSettle (pre ++ (w, r) :: post) = some (.resolved (credsOf w)) :=
  firstSettle_busy_prefix_free pre post w r hpre hfree

/-- Witness for C3 amended: one Busy result first, then cal2 reports
Free, then a late Error arrives from cal1 and is discarded. -/
theorem findFreeRoom_first_free_wins_witness :
    firstSettle [(cal1, .events ["m"]), (cal2, .events []), (cal1, .err "late")] =
      some (.resolved (credsOf cal2)) :=
  findFreeRoom_first_free_wins [(cal1, .events ["m"])] [(cal1, .err "late")]
    cal2 (.events []) (by decide) (by decide)

/-- C10: findFreeRoom issues a query only for calendars whose name is in
namesToFind, and when the completion order consists of issued queries,
any resolution carries the creds of an issued calendar, so its name is a
member of namesToFind. -/
theorem findFreeRoom_respects_allowlist
    (names : List String) (cals : List Calendar)
    (evs : List (Calendar × QueryResult)) (creds : Creds)
    (hq : ∀ p ∈ evs, p.1 ∈ issuedQueries names cals)
    (hr : firstSettle evs = some (.resolved creds)) :
    (∀ c ∈ issuedQueries names cals, c.name ∈ names) ∧ creds.name ∈ names := by
  have hmem : ∀ c ∈ issuedQueries names cals, c.name ∈ names := by
    intro c hc
    have := (List.mem_filter.mp hc).2
    simpa using this
  refine ⟨hmem, ?_⟩
  obtain ⟨p, hp, hps⟩ := firstSettle_resolved_mem evs creds hr
  have hcred := settleOf_resolved_eq p.1 p.2 creds hps
  have : p.1.name ∈ names := hmem p.1 (hq p hp)
  rw [hcred]
  exact this

/-- Witness for C10: with cal1 allow-listed and cal2 not, only cal1 is
queried, and a run where that query reports Free resolves to a creds
whose name is on the allow-list. -/
theorem findFreeRoom_respects_allowlist_witness :
    (∀ c ∈ issuedQueries ["Room 1"] [cal1, cal2], c.name ∈ ["Room 1"]) ∧
      (credsOf cal1).name ∈ ["Room 1"] :=
  findFreeRoom_respects_allowlist ["Room 1"] [cal1, cal2]
    [(cal1, .events [])] (credsOf cal1) (by decide) (by decide)

/-- C7: the requesters callbacks run JSON.parse on the response body
before inspecting the err argument, so a remote side that produces a
body that is not valid JSON (for example, the undefined body that
accompanies a transport error) makes the callback throw an uncaught
exception instead of rejecting the deferred with a typed cause: the
failure escapes every catch point. Evaluated at such failing inputs for
postRoom and getCalendars. -/
theorem requesters_nonjson_body_throws :
    postRoomCallback (some "ECONNREFUSED") none "Owner One" = .thrown ∧
    getCalendarsCallback (some "ECONNREFUSED") none = .thrown := by
  constructor
  · rfl
  · rfl

/-- Dialog state of the controller: the empty state of a fresh session
(handler.state is the empty string), states.TIMEMODE and
states.CONFIRMMODE. -/
inductive DialogState where
  | idle
  | timeMode
  | confirmMode
deriving Repr, DecidableEq

/-- Speech values produced through this.t: one constructor per resource
key used by index.js, carrying the attribute arguments that are spliced
in (roomName, ownerName, duration). Arguments are optional because the
attributes may be undefined when the key is rendered. -/
inductive Speech where
  | welcome
  | welcomeReprompt
  | helpMessage
  | helpReprompt
  | timeDuration
  | timeDurationReprompt
  | timeHelp (room : Option String)
  | timeHelpReprompt (room : Option String)
  | timeTooLong
  | timeTooLongReprompt
  | timeUnhandled
  | timeUnhandledReprompt
  | roomAvailable (room : Option String)
  | roomAvailableReprompt (room : Option String)
  | timeUnavailable (durationMin : Option ℚ)
  | timeUnavailableReprompt (durationMin : Option ℚ)
  | bookingHelp (room : Option String)
  | bookingHelpReprompt (room : Option String)
  | bookingUnhandled
  | bookingUnhandledReprompt
  | unhandledMessage
  | unhandledReprompt
  | stopMessage
  | roomError
  | roomErrorCardTitle
  | bookingError
  | bookingErrorCardTitle
  | roomBooked (owner : Option String) (durationMin : Option ℚ)
  | cardRoomBookedTitle (owner : Option String)
  | cardRoomBookedContent (owner : Option String) (durationMin : Option ℚ)
deriving Repr, DecidableEq

/-- Session attributes (this.attributes) as persisted between
invocations; every field starts undefined (none). The duration field
holds bookingDuration.asMinutes(). -/
structure Attrs where
  ownerAddress : Option String := none
  ownerName : Option String := none
  roomName : Option String := none
  startTime : Option String := none
  endTime : Option String := none
  duration : Option ℚ := none
  speechOutput : Option Speech := none
  repromptSpeech : Option Speech := none
deriving Repr, DecidableEq

/-- Content of a display card: the error value passed straight through
as card content on the error paths, or a rendered resource string on the
booking-confirmation path. -/
inductive CardContent where
  | fromError (e : String)
  | fromSpeech (s : Speech)
deriving Repr, DecidableEq

/-- The single outbound response of an invocation: ':ask' keeps the
session open with speech and reprompt, ':tell' closes it, and
':tellWithCard' closes it with a display card. -/
inductive Response where
  | ask (speech reprompt : Option Speech)
  | tell (speech : Option Speech)
  | tellWithCard (speech cardTitle : Option Speech) (content : CardContent)
deriving Repr, DecidableEq

/-- External side effects an invocation triggers: the availability
fan-out (getCalendars plus findFreeRoom) and the booking write
(postRoom). -/
inductive Effect where
  | queriedAvailability
  | postedBooking
deriving Repr, DecidableEq

/-- Result of one invocation of the controller: next dialog state, next
attributes, the response (none when the pending promise never settles,
so no response is ever emitted), and the remote calls made. -/
structure StepResult where
  state : DialogState
  attrs : Attrs
  response : Option Response
  effects : List Effect
deriving Repr, DecidableEq

/-- The intents the platform can deliver to the registered handlers; the
duration intent carries its Duration slot value, which may be absent. -/
inductive Intent where
  | launchRequest
  | helpIntent
  | repeatIntent
  | stopIntent
  | cancelIntent
  | noIntent
  | yesIntent
  | bookIntent
  | durationIntent (slot : Option String)
  | startOverIntent
  | unhandledIntent
deriving Repr, DecidableEq

/-- Math.round as used by moment: round half toward positive infinity
(Math.round of x equals the floor of x + 1/2). -/
def jsRound (x : ℚ) : Int := ⌊x + 1 / 2⌋

/-- Truncation toward zero, as performed by JS ToInteger when the Date
constructor clips a fractional millisecond value. -/
def jsTrunc (x : ℚ) : Int := if x < 0 then ⌈x⌉ else ⌊x⌋

/-- moment's monthsToDays conversion: the average Gregorian month of
146097 / 4800 days. -/
def monthsToDays (months : ℚ) : ℚ := months * 146097 / 4800

/-- A moment.js Duration object as stored by its constructor: the
millisecond bucket (hours, minutes, seconds and milliseconds), the day
bucket (days plus 7 per week) and the month bucket (months plus 12 per
year), each an exact rational standing in for the JS float. -/
structure MomentDuration where
  milliseconds : ℚ
  days : ℚ
  months : ℚ
deriving Repr, DecidableEq

/-- The day count moment's as() uses for the hour-like units: the day
bucket plus the month bucket converted through monthsToDays and rounded
to whole days with Math.round. -/
def MomentDuration.roundedDays (d : MomentDuration) : ℚ :=
  d.days + (jsRound (monthsToDays d.months) : ℚ)

/-- The exact total length in milliseconds underlying the hour-like
accessors: roundedDays in milliseconds plus the millisecond bucket. -/
def MomentDuration.totalMillis (d : MomentDuration) : ℚ :=
  d.roundedDays * 86400000 + d.milliseconds

/-- The asHours accessor, from moment's as(): days times 24 plus the
millisecond bucket over 3600000. -/
def MomentDuration.asHours (d : MomentDuration) : ℚ :=
  d.roundedDays * 24 + d.milliseconds / 3600000

/-- The asMinutes accessor: days times 1440 plus the millisecond bucket
over 60000. -/
def MomentDuration.asMinutes (d : MomentDuration) : ℚ :=
  d.roundedDays * 1440 + d.milliseconds / 60000

/-- The asMilliseconds accessor: moment floors the day part to whole
milliseconds and adds the millisecond bucket. -/
def MomentDuration.asMilliseconds (d : MomentDuration) : ℚ :=
  (⌊d.roundedDays * 86400000⌋ : ℚ) + d.milliseconds

/-- The zero-length duration moment returns for string inputs matching
neither of its two duration formats. -/
def zeroDuration : MomentDuration := ⟨0, 0, 0⟩

/-- Digit run to a natural number; the empty run reads as 0, matching JS
toInt of an empty capture (callers pass digit characters only). -/
def natOfDigits (cs : List Char) : Nat :=
  cs.foldl (fun n c => n * 10 + (c.toNat - 48)) 0

/-- Digit run to the fraction it denotes after a decimal point. -/
def fracOfDigits (cs : List Char) : ℚ :=
  cs.foldr (fun c q => (((c.toNat - 48 : ℕ) : ℚ) + q) / 10) 0

/-- JS String.replace with a plain string pattern replaces only the
first occurrence: moment turns the first comma into a dot before
parseFloat. -/
def replaceFirstComma : List Char → List Char
  | [] => []
  | ',' :: rest => '.' :: rest
  | c :: rest => c :: replaceFirstComma rest

/-- JS parseFloat on the component alphabet of moment's ISO duration
regex (an optional sign, digits, dots, commas): optional sign, integer
digits, optionally a dot and fraction digits, ignoring any trailing
characters; NaN (no digit consumed at all) reads as 0, matching
moment's parseIso fallback. -/
def parseJsFloat (cs : List Char) : ℚ :=
  let signAndRest : ℚ × List Char :=
    match cs with
    | '-' :: r => (-1, r)
    | '+' :: r => (1, r)
    | r => (1, r)
  let intDigits := signAndRest.2.takeWhile Char.isDigit
  let afterInt := signAndRest.2.dropWhile Char.isDigit
  let fracDigits :=
    match afterInt with
    | '.' :: r => r.takeWhile Char.isDigit
    | _ => []
  if intDigits.isEmpty && fracDigits.isEmpty then 0
  else signAndRest.1 * ((natOfDigits intDigits : ℚ) + fracOfDigits fracDigits)

/-- The value of one captured ISO component per moment's parseIso: an
empty capture reads as 0, otherwise parseFloat after the comma
replacement, multiplied by the whole-duration sign. -/
def parseIsoVal (sign : ℚ) (content : List Char) : ℚ :=
  if content.isEmpty then 0
  else sign * parseJsFloat (replaceFirstComma content)

/-- A character the ISO component capture of digits, commas and dots may
contain. -/
def isCompChar (c : Char) : Bool := c.isDigit || c = ',' || c = '.'

/-- Tries one optional group of moment's ISO regex: an optional sign, a
run of digits, commas and dots, then the given designator letter.
Returns the captured component and the remainder after the designator,
or none when the designator does not follow (the group then matches
empty and consumes nothing, exactly as the regex backtracks, since the
run alphabet never contains a designator letter). -/
def takeComponent (designator : Char) (cs : List Char) : Option (List Char × List Char) :=
  let signAndRest : List Char × List Char :=
    match cs with
    | '-' :: r => (['-'], r)
    | '+' :: r => (['+'], r)
    | r => ([], r)
  let body := signAndRest.2.takeWhile isCompChar
  let rest := signAndRest.2.dropWhile isCompChar
  match rest with
  | c :: r => if c = designator then some (signAndRest.1 ++ body, r) else none
  | [] => none

/-- One optional ISO component: its parsed value and the remaining
input, with value 0 and the input unchanged when the group does not
match. -/
def tryComponent (sign : ℚ) (designator : Char) (cs : List Char) : ℚ × List Char :=
  match takeComponent designator cs with
  | some (content, rest) => (parseIsoVal sign content, rest)
  | none => (0, cs)

/-- moment's Duration constructor on the parsed unit values: the month
bucket collects months and years, the day bucket days and weeks, and
the millisecond bucket hours, minutes and seconds. -/
def mkMomentDuration (y mo w d h mi s : ℚ) : MomentDuration :=
  ⟨h * 3600000 + mi * 60000 + s * 1000, d + w * 7, mo + y * 12⟩

/-- The tail of moment's ISO duration regex after the P: optional Y, M,
W, D components in that order, then an optional T section with optional
H, M, S components; the whole input must be consumed. -/
def parseIsoTail (sign : ℚ) (cs : List Char) : Option MomentDuration :=
  let py := tryComponent sign 'Y' cs
  let pmo := tryComponent sign 'M' py.2
  let pw := tryComponent sign 'W' pmo.2
  let pd := tryComponent sign 'D' pw.2
  match pd.2 with
  | [] => some (mkMomentDuration py.1 pmo.1 pw.1 pd.1 0 0 0)
  | 'T' :: ct =>
    let ph := tryComponent sign 'H' ct
    let pmi := tryComponent sign 'M' ph.2
    let ps := tryComponent sign 'S' pmi.2
    if ps.2.isEmpty then
      some (mkMomentDuration py.1 pmo.1 pw.1 pd.1 ph.1 pmi.1 ps.1)
    else none
  | _ => none

/-- moment's ISO-8601 duration format (its isoRegex): an optional
whole-duration sign, the letter P, then the component tail; none when
the regex does not match the whole string. -/
def parseIsoDuration (s : String) : Option MomentDuration :=
  match s.toList with
  | '-' :: 'P' :: rest => parseIsoTail (-1) rest
  | '+' :: 'P' :: rest => parseIsoTail 1 rest
  | 'P' :: rest => parseIsoTail 1 rest
  | _ => none

/-- moment's aspNet duration format (its aspNetRegex, d.hh:mm:ss): an
optional sign, an optional day count ended by a dot or a space, hours,
a colon, minutes, and optionally a colon, seconds and a
fractional-second capture whose value is scaled to milliseconds and
rounded; the whole input must be consumed, and every unit is multiplied
by the sign. -/
def parseAspNet (s : String) : Option MomentDuration :=
  let signAndRest : ℚ × List Char :=
    match s.toList with
    | '-' :: r => (-1, r)
    | '+' :: r => (1, r)
    | r => (1, r)
  let sign := signAndRest.1
  let dayRun := signAndRest.2.takeWhile Char.isDigit
  let afterDayRun := signAndRest.2.dropWhile Char.isDigit
  let daysAndRest : ℚ × List Char :=
    match afterDayRun with
    | '.' :: r => ((natOfDigits dayRun : ℚ), r)
    | ' ' :: r => ((natOfDigits dayRun : ℚ), r)
    | _ => (0, signAndRest.2)
  let hourRun := daysAndRest.2.takeWhile Char.isDigit
  let afterHours := daysAndRest.2.dropWhile Char.isDigit
  if hourRun.isEmpty then none
  else
    match afterHours with
    | ':' :: r1 =>
      let minRun := r1.takeWhile Char.isDigit
      let afterMin := r1.dropWhile Char.isDigit
      if minRun.isEmpty then none
      else
        let base : ℚ := (natOfDigits hourRun : ℚ) * 3600000 + (natOfDigits minRun : ℚ) * 60000
        match afterMin with
        | [] => some ⟨sign * base, sign * daysAndRest.1, 0⟩
        | ':' :: r2 =>
          let secRun := r2.takeWhile Char.isDigit
          let afterSec := r2.dropWhile Char.isDigit
          if secRun.isEmpty then none
          else
            let secs : ℚ := (natOfDigits secRun : ℚ) * 1000
            match afterSec with
            | [] => some ⟨sign * (base + secs), sign * daysAndRest.1, 0⟩
            | '.' :: r3 =>
              if (r3.dropWhile Char.isDigit).isEmpty then
                some ⟨sign * (base + secs +
                        (jsRound (fracOfDigits (r3.takeWhile Char.isDigit) * 1000) : ℚ)),
                      sign * daysAndRest.1, 0⟩
              else none
            | _ => none
        | _ => none
    | _ => none

/-- Embeds moment.duration applied to the Duration slot value. Per
moment's string handling the call ALWAYS returns a Duration object,
which is truthy: the aspNet format is tried first, then the ISO format,
and a string matching neither (or an undefined slot) yields the
zero-length duration, never a falsy value. A none here would model a
falsy return, which moment never produces. -/
def momentDuration (slot : Option String) : Option MomentDuration :=
  some (match slot with
        | none => zeroDuration
        | some s =>
          match parseAspNet s with
          | some d => d
          | none => (parseIsoDuration s).getD zeroDuration)

/-- Stand-in for Date.prototype.toISOString on a millisecond epoch
timestamp; injective, which is all the controller relies on. -/
def toISOString (ms : Int) : String := "ISO:" ++ toString ms

/-- Embeds the helper emitAsk: stores the two speech values into the
attributes for later repeat, then emits them as an ':ask' response. -/
def emitAsk (a : Attrs) (sp rp : Option Speech) : Attrs × Response :=
  ({ a with speechOutput := sp, repromptSpeech := rp }, .ask sp rp)

/-- Embeds the helper emitRepeat: emitAsk on the stored speechOutput and
repromptSpeech attributes of the previous turn. -/
def emitRepeat (a : Attrs) : Attrs × Response :=
  emitAsk a a.speechOutput a.repromptSpeech

/-- Embeds the helper resetAttributes: every non-state attribute is set
back to undefined. -/
def resetAttributes (_a : Attrs) : Attrs := {}

/-- Embeds the helper setDuration: startTime is the invocation's
wall-clock time, endTime is startTime plus the duration, both stored as
ISO strings, and duration stores asMinutes(). -/
def setDuration (a : Attrs) (nowMs : Int) (bd : MomentDuration) : Attrs :=
  { a with
    startTime := some (toISOString nowMs),
    endTime := some (toISOString (nowMs + jsTrunc bd.asMilliseconds)),
    duration := some bd.asMinutes }

/-- Environment of one invocation: the wall clock, the settlement of the
getCalendars request, the completion order of the findFreeRoom fan-out,
and the settlement of the postRoom write. -/
structure Env where
  nowMs : Int
  calendars : Except String (List Calendar)
  completion : List (Calendar × QueryResult)
  postResult : Except String Unit

/-- How the getRoom helper's own deferred settles, derived from the
requesters model: getCalendars rejecting propagates its cause;
otherwise the findFreeRoom deferred's first settlement decides, and if
that deferred never settles, getRoom's promise hangs too. -/
inductive GetRoomOutcome where
  | found (c : Creds)
  | failed (e : String)
  | never
deriving Repr, DecidableEq

/-- Settlement of getRoom as a function of the environment, composed
from getCalendarsCallback's reject path and firstSettle. -/
def getRoomOutcome (env : Env) : GetRoomOutcome :=
  match env.calendars with
  | .error e => .failed e
  | .ok _ =>
    match firstSettle env.completion with
    | some (.resolved c) => .found c
    | some (.rejected e) => .failed e
    | none => .never

/-- An invocation that ends in emitAsk: state st, updated attributes,
':ask' response, no remote calls. -/
def askStep (st : DialogState) (a : Attrs) (sp rp : Option Speech) : StepResult :=
  let p := emitAsk a sp rp
  ⟨st, p.1, some p.2, []⟩

/-- Embeds emitStartOver as run by AMAZON.StartOverIntent in TIMEMODE
and CONFIRMMODE: handler.state is set back to the empty string, all
attributes are reset, and LaunchRequest is re-emitted with that empty
state, which lands in sessionHandlers.LaunchRequest and asks the welcome
message. -/
def startOverStep (a : Attrs) : StepResult :=
  askStep .idle (resetAttributes a) (some .welcome) (some .welcomeReprompt)

/-- Embeds timeModeHandlers.DurationIntent: moment.duration on the slot,
the falsy check on the returned object, the two bound checks on
asHours(), and on acceptance setDuration followed by getRoom, whose
settlement either moves to CONFIRMMODE and asks for confirmation, asks
again (dead branch for a falsy resolution), emits the room-error card,
or never settles so that no response is ever produced. -/
def durationStep (a : Attrs) (slot : Option String) (env : Env) : StepResult :=
  match momentDuration slot with
  | none =>
    askStep .timeMode a (some .timeUnhandled) (some .timeUnhandled)
  | some bd =>
    if bd.asHours > 2 then
      askStep .timeMode a (some .timeTooLong) (some .timeTooLongReprompt)
    else if bd.asHours ≤ 0 then
      askStep .timeMode a (some .timeUnhandled) (some .timeUnhandledReprompt)
    else
      let a2 := setDuration a env.nowMs bd
      match getRoomOutcome env with
      | .found c =>
        let a3 := { a2 with
          ownerAddress := some c.ownerAddress,
          ownerName := some c.ownerName,
          roomName := some c.name }
        let p := emitAsk a3 (some (.roomAvailable a3.roomName))
          (some (.roomAvailableReprompt a3.roomName))
        ⟨.confirmMode, p.1, some p.2, [.queriedAvailability]⟩
      | .failed e =>
        ⟨.timeMode, a2,
         some (.tellWithCard (some .roomError) (some .roomErrorCardTitle) (.fromError e)),
         [.queriedAvailability]⟩
      | .never =>
        ⟨.timeMode, a2, none, [.queriedAvailability]⟩

/-- Embeds confirmModeHandlers.BookIntent: requesters.postRoom, then the
booked card on success or the booking-error card on rejection; either
way the response closes the session. -/
def bookStep (a : Attrs) (env : Env) : StepResult :=
  match env.postResult with
  | .ok _ =>
    ⟨.confirmMode, a,
     some (.tellWithCard (some (.roomBooked a.ownerName a.duration))
       (some (.cardRoomBookedTitle a.ownerName))
       (.fromSpeech (.cardRoomBookedContent a.ownerName a.duration))),
     [.postedBooking]⟩
  | .error e =>
    ⟨.confirmMode, a,
     some (.tellWithCard (some .bookingError) (some .bookingErrorCardTitle) (.fromError e)),
     [.postedBooking]⟩

/-- An invocation that ends the session with the stop message, reached
through this.emit on SessionEndedRequest from the stop, cancel and no
handlers of every handler set. -/
def stopStep (st : DialogState) (a : Attrs) : StepResult :=
  ⟨st, a, some (.tell (some .stopMessage)), []⟩

/-- The dispatch of one invocation: alexa-sdk looks up the handler for
the incoming intent name suffixed with the current state, so the three
handler sets of index.js become one function of (state, intent); intents
with no handler in the current set fall back to that set's Unhandled
handler. -/
def dispatch (st : DialogState) (a : Attrs) (i : Intent) (env : Env) : StepResult :=
  match st, i with
  | .idle, .launchRequest => askStep .idle a (some .welcome) (some .welcomeReprompt)
  | .idle, .helpIntent => askStep .idle a (some .helpMessage) (some .helpReprompt)
  | .idle, .repeatIntent => ⟨.idle, (emitRepeat a).1, some (emitRepeat a).2, []⟩
  | .idle, .stopIntent => stopStep .idle a
  | .idle, .cancelIntent => stopStep .idle a
  | .idle, .noIntent => stopStep .idle a
  | .idle, .yesIntent => askStep .timeMode a (some .timeDuration) (some .timeDurationReprompt)
  | .idle, .bookIntent => askStep .timeMode a (some .timeDuration) (some .timeDurationReprompt)
  | .idle, .durationIntent _ => askStep .idle a (some .unhandledMessage) (some .unhandledReprompt)
  | .idle, .startOverIntent => askStep .idle a (some .unhandledMessage) (some .unhandledReprompt)
  | .idle, .unhandledIntent => askStep .idle a (some .unhandledMessage) (some .unhandledReprompt)
  | .timeMode, .helpIntent =>
    askStep .timeMode a (some (.timeHelp a.roomName)) (some (.timeHelpReprompt a.roomName))
  | .timeMode, .repeatIntent => ⟨.timeMode, (emitRepeat a).1, some (emitRepeat a).2, []⟩
  | .timeMode, .stopIntent => stopStep .timeMode a
  | .timeMode, .cancelIntent => stopStep .timeMode a
  | .timeMode, .noIntent => stopStep .timeMode a
  | .timeMode, .durationIntent slot => durationStep a slot env
  | .timeMode, .startOverIntent => startOverStep a
  | .timeMode, .launchRequest =>
    askStep .timeMode a (some .timeUnhandled) (some .timeUnhandledReprompt)
  | .timeMode, .yesIntent =>
    askStep .timeMode a (some .timeUnhandled) (some .timeUnhandledReprompt)
  | .timeMode, .bookIntent =>
    askStep .timeMode a (some .timeUnhandled) (some .timeUnhandledReprompt)
  | .timeMode, .unhandledIntent =>
    askStep .timeMode a (some .timeUnhandled) (some .timeUnhandledReprompt)
  | .confirmMode, .helpIntent =>
    askStep .confirmMode a (some (.bookingHelp a.roomName)) (some (.bookingHelpReprompt a.roomName))
  | .confirmMode, .repeatIntent => ⟨.confirmMode, (emitRepeat a).1, some (emitRepeat a).2, []⟩
  | .confirmMode, .stopIntent => stopStep .confirmMode a
  | .confirmMode, .cancelIntent => stopStep .confirmMode a
  | .confirmMode, .noIntent => stopStep .confirmMode a
  | .confirmMode, .yesIntent => bookStep a env
  | .confirmMode, .bookIntent => bookStep a env
  | .confirmMode, .startOverIntent => startOverStep a
  | .confirmMode, .launchRequest =>
    askStep .confirmMode a (some .bookingUnhandled) (some .bookingUnhandledReprompt)
  | .confirmMode, .durationIntent _ =>
    askStep .confirmMode a (some .bookingUnhandled) (some .bookingUnhandledReprompt)
  | .confirmMode, .unhandledIntent =>
    askStep .confirmMode a (some .bookingUnhandled) (some .bookingUnhandledReprompt)

/-- Helper: asHours is exactly the duration's total milliseconds over
3600000. -/
theorem asHours_eq_totalMillis (d : MomentDuration) :
    d.asHours = d.totalMillis / 3600000 := by
  unfold MomentDuration.asHours MomentDuration.totalMillis
  field_simp
  ring

/-- Helper: the tooLong test asHours() greater than 2 holds exactly when
the duration's total milliseconds exceed 7200000 (the 2-hour cap). -/
theorem asHours_gt_two_iff (d : MomentDuration) :
    (d.asHours > 2) ↔ 7200000 < d.totalMillis := by
  rw [asHours_eq_totalMillis, gt_iff_lt, lt_div_iff₀ (by norm_num : (0 : ℚ) < 3600000)]
  norm_num

/-- Helper: the tooShort test asHours() at most 0 holds exactly when the
duration's total milliseconds are at most 0. -/
theorem asHours_nonpos_iff (d : MomentDuration) :
    (d.asHours ≤ 0) ↔ d.totalMillis ≤ 0 := by
  rw [asHours_eq_totalMillis, div_le_iff₀ (by norm_num : (0 : ℚ) < 3600000)]
  norm_num

/-- C6: with the Duration slot parsing to a duration whose exact total
length is m milliseconds, the DurationIntent handler accepts every
duration with 0 < m up to the 2-hour cap of 7200000 and proceeds to
availability resolution; a non-positive duration is rejected as too
short and one over the cap as too long, in both cases with an ':ask'
reprompt that leaves the session in TIMEMODE and issues no availability
query. -/
theorem durationIntent_bounds (a : Attrs) (env : Env) (slot : Option String)
    (bd : MomentDuration) (m : ℚ)
    (h : momentDuration slot = some bd) (hm : bd.totalMillis = m) :
    (0 < m ∧ m ≤ 7200000 →
      (dispatch .timeMode a (.durationIntent slot) env).effects = [.queriedAvailability]) ∧
    (m ≤ 0 →
      dispatch .timeMode a (.durationIntent slot) env =
        askStep .timeMode a (some .timeUnhandled) (some .timeUnhandledReprompt)) ∧
    (7200000 < m →
      dispatch .timeMode a (.durationIntent slot) env =
        askStep .timeMode a (some .timeTooLong) (some .timeTooLongReprompt)) := by
  subst hm
  refine ⟨?_, ?_, ?_⟩
  · rintro ⟨h1, h2⟩
    have hg : ¬ (bd.asHours > 2) := by rw [asHours_gt_two_iff]; linarith
    have hl : ¬ (bd.asHours ≤ 0) := by rw [asHours_nonpos_iff]; linarith
    simp only [dispatch, durationStep, h, if_neg hg, if_neg hl]
    cases hro : getRoomOutcome env <;> simp [hro]
  · intro h1
    have hg : ¬ (bd.asHours > 2) := by rw [asHours_gt_two_iff]; linarith
    have hl : bd.asHours ≤ 0 := by rw [asHours_nonpos_iff]; linarith
    simp only [dispatch, durationStep, h, if_neg hg, if_pos hl]
  · intro h1
    have hg : bd.asHours > 2 := by rw [asHours_gt_two_iff]; linarith
    simp only [dispatch, durationStep, h, if_pos hg]

/-- Witness for C6: the 30-minute duration PT30M parses to the duration
with a 1800000 ms millisecond bucket and empty day and month buckets,
is within bounds, and the handler proceeds to the availability
fan-out. -/
theorem durationIntent_bounds_witness :
    momentDuration (some "PT30M") = some ⟨1800000, 0, 0⟩ ∧
    (⟨1800000, 0, 0⟩ : MomentDuration).totalMillis = 1800000 ∧
    (0 : ℚ) < 1800000 ∧ (1800000 : ℚ) ≤ 7200000 ∧
    (dispatch .timeMode {}
      (.durationIntent (some "PT30M"))
      ⟨1000, .ok [cal1], [(cal1, .events [])], .ok ()⟩).effects =
      [.queriedAvailability] := by
  have hparse : momentDuration (some "PT30M") = some ⟨1800000, 0, 0⟩ := by
    simp [momentDuration, parseAspNet, parseIsoDuration, parseIsoTail, tryComponent,
      takeComponent, parseIsoVal, parseJsFloat, replaceFirstComma, natOfDigits,
      fracOfDigits, isCompChar, mkMomentDuration, zeroDuration,
      List.takeWhile, List.dropWhile]
    norm_num
  have htot : (⟨1800000, 0, 0⟩ : MomentDuration).totalMillis = 1800000 := by
    norm_num [MomentDuration.totalMillis, MomentDuration.roundedDays, jsRound, monthsToDays]
  refine ⟨hparse, htot, by norm_num, by norm_num, ?_⟩
  exact (durationIntent_bounds {} ⟨1000, .ok [cal1], [(cal1, .events [])], .ok ()⟩
    (some "PT30M") ⟨1800000, 0, 0⟩ 1800000 hparse htot).1
    ⟨by norm_num, by norm_num⟩

/-- C9: moment.duration never returns a falsy value on any Duration slot
string, so the invalid-duration else branch of the DurationIntent
handler is unreachable; a slot string matching neither of moment's two
duration formats yields the zero-length duration and is handled by the
tooShort branch (whose reprompt is TIME_UNHANDLED_REPROMPT), not by a
distinct unparseable classification (the dead else branch would repeat
TIME_UNHANDLED_MESSAGE as the reprompt). -/
theorem momentDuration_truthy_unparseable_too_short (s : String)
    (h1 : parseAspNet s = none) (h2 : parseIsoDuration s = none)
    (a : Attrs) (env : Env) :
    momentDuration (some s) ≠ none ∧
    momentDuration (some s) = some zeroDuration ∧
    dispatch .timeMode a (.durationIntent (some s)) env =
      askStep .timeMode a (some .timeUnhandled) (some .timeUnhandledReprompt) := by
  have hm : momentDuration (some s) = some zeroDuration := by
    simp [momentDuration, h1, h2]
  refine ⟨by simp [hm], hm, ?_⟩
  have hg : ¬ (zeroDuration.asHours > 2) := by
    rw [asHours_gt_two_iff]
    norm_num [zeroDuration, MomentDuration.totalMillis, MomentDuration.roundedDays,
      jsRound, monthsToDays]
  have hl : zeroDuration.asHours ≤ 0 := by
    rw [asHours_nonpos_iff]
    norm_num [zeroDuration, MomentDuration.totalMillis, MomentDuration.roundedDays,
      jsRound, monthsToDays]
  simp only [dispatch, durationStep, hm, if_neg hg, if_pos hl]

/-- Witness for C9 at the slot value half an hour, which matches neither
the aspNet format (no colon) nor the ISO format (no leading P). -/
theorem momentDuration_truthy_unparseable_too_short_witness :
    parseAspNet "half an hour" = none ∧
    parseIsoDuration "half an hour" = none ∧
    momentDuration (some "half an hour") ≠ none ∧
    dispatch .timeMode {} (.durationIntent (some "half an hour"))
        ⟨0, .ok [], [], .ok ()⟩ =
      askStep .timeMode {} (some .timeUnhandled) (some .timeUnhandledReprompt) := by
  have h := momentDuration_truthy_unparseable_too_short "half an hour"
    (by decide) (by decide) {} ⟨0, .ok [], [], .ok ()⟩
  exact ⟨by decide, by decide, h.1, h.2.2⟩

/-- Helper: the repeat handler of every handler set calls emitRepeat,
which re-asks the stored speechOutput and repromptSpeech and leaves both
the attributes and the state untouched. -/
theorem dispatch_repeat (st : DialogState) (a : Attrs) (env : Env) :
    dispatch st a .repeatIntent env =
      ⟨st, a, some (.ask a.speechOutput a.repromptSpeech), []⟩ := by
  cases st <;> simp [dispatch, emitRepeat, emitAsk]

/-- Helper: whenever an invocation produces an ':ask' response, the
response went through emitAsk, so the resulting attributes store exactly
the emitted speech and reprompt. -/
theorem ask_overwrites (st : DialogState) (a : Attrs) (i : Intent) (env : Env) :
    ∀ sp rp : Option Speech,
      (dispatch st a i env).response = some (.ask sp rp) →
      (dispatch st a i env).attrs.speechOutput = sp ∧
      (dispatch st a i env).attrs.repromptSpeech = rp := by
  cases st <;> cases i <;>
    try (intro sp rp h;
         simp_all [dispatch, askStep, startOverStep, stopStep,
           emitAsk, emitRepeat, resetAttributes];
         done)
  case timeMode.durationIntent slot =>
    simp only [dispatch, durationStep, momentDuration]
    split
    · intro sp rp h
      simp_all [askStep, emitAsk]
    · split
      · intro sp rp h
        simp_all [askStep, emitAsk]
      · cases hro : getRoomOutcome env <;> simp [hro, emitAsk]
  case confirmMode.yesIntent =>
    simp only [dispatch, bookStep]
    cases env.postResult <;> intro sp rp h <;> simp_all
  case confirmMode.bookIntent =>
    simp only [dispatch, bookStep]
    cases env.postResult <;> intro sp rp h <;> simp_all

/-- C8: every invocation that produces a continuation prompt first
overwrites the stored speechOutput and repromptSpeech attributes with
exactly the emitted speech and reprompt, and dispatching the repeat
intent on the resulting session re-emits that same speech and reprompt
verbatim while changing neither the state nor the attributes. -/
theorem prompt_then_repeat_reproduces (st : DialogState) (a : Attrs) (i : Intent)
    (env env2 : Env) (sp rp : Option Speech)
    (h : (dispatch st a i env).response = some (.ask sp rp)) :
    (dispatch st a i env).attrs.speechOutput = sp ∧
    (dispatch st a i env).attrs.repromptSpeech = rp ∧
    dispatch (dispatch st a i env).state (dispatch st a i env).attrs .repeatIntent env2 =
      ⟨(dispatch st a i env).state, (dispatch st a i env).attrs, some (.ask sp rp), []⟩ := by
  obtain ⟨h1, h2⟩ := ask_overwrites st a i env sp rp h
  refine ⟨h1, h2, ?_⟩
  rw [dispatch_repeat, h1, h2]

/-- Witness for C8: the launch prompt of a fresh session, followed by a
repeat that reproduces the welcome speech and reprompt. -/
theorem prompt_then_repeat_reproduces_witness :
    (dispatch .idle {} .launchRequest ⟨0, .ok [], [], .ok ()⟩).attrs.speechOutput =
        some .welcome ∧
    (dispatch .idle {} .launchRequest ⟨0, .ok [], [], .ok ()⟩).attrs.repromptSpeech =
        some .welcomeReprompt ∧
    dispatch (dispatch .idle {} .launchRequest ⟨0, .ok [], [], .ok ()⟩).state
        (dispatch .idle {} .launchRequest ⟨0, .ok [], [], .ok ()⟩).attrs
        .repeatIntent ⟨1, .ok [], [], .ok ()⟩ =
      ⟨(dispatch .idle {} .launchRequest ⟨0, .ok [], [], .ok ()⟩).state,
       (dispatch .idle {} .launchRequest ⟨0, .ok [], [], .ok ()⟩).attrs,
       some (.ask (some .welcome) (some .welcomeReprompt)), []⟩ :=
  prompt_then_repeat_reproduces .idle {} .launchRequest
    ⟨0, .ok [], [], .ok ()⟩ ⟨1, .ok [], [], .ok ()⟩
    (some .welcome) (some .welcomeReprompt) rfl

/-- The six booking attributes are all set: ownerAddress, ownerName,
roomName, startTime, endTime and duration all hold a value. -/
def groupAllSet (a : Attrs) : Prop :=
  a.ownerAddress.isSome = true ∧ a.ownerName.isSome = true ∧
  a.roomName.isSome = true ∧ a.startTime.isSome = true ∧
  a.endTime.isSome = true ∧ a.duration.isSome = true

/-- The six booking attributes are all unset. -/
def groupAllUnset (a : Attrs) : Prop :=
  a.ownerAddress = none ∧ a.ownerName = none ∧ a.roomName = none ∧
  a.startTime = none ∧ a.endTime = none ∧ a.duration = none

/-- The invariant of C4: the booking attribute group is written and
cleared as a whole, so it is either entirely set or entirely unset. -/
def groupAtomic (a : Attrs) : Prop := groupAllSet a ∨ groupAllUnset a

/-- Helper: one invocation that keeps the session open (an ':ask'
response) preserves the all-or-nothing state of the booking attribute
group; a partially written group only ever occurs on a path whose
response closes the session or on the hanging path that produces no
response at all. -/
theorem dispatch_preserves_group (st : DialogState) (a : Attrs) (i : Intent) (env : Env)
    (h : groupAtomic a) :
    ∀ sp rp : Option Speech,
      (dispatch st a i env).response = some (.ask sp rp) →
      groupAtomic (dispatch st a i env).attrs := by
  cases st <;> cases i <;>
    try (intro sp rp hr;
         simp_all [dispatch, askStep, startOverStep, stopStep, emitAsk, emitRepeat,
           resetAttributes, groupAtomic, groupAllSet, groupAllUnset];
         done)
  case timeMode.durationIntent slot =>
    simp only [dispatch, durationStep, momentDuration]
    split
    · intro sp rp hr
      simp_all [askStep, emitAsk, groupAtomic, groupAllSet, groupAllUnset]
    · split
      · intro sp rp hr
        simp_all [askStep, emitAsk, groupAtomic, groupAllSet, groupAllUnset]
      · cases hro : getRoomOutcome env <;>
          simp [hro, emitAsk, setDuration, groupAtomic, groupAllSet, groupAllUnset]
  case confirmMode.yesIntent =>
    simp only [dispatch, bookStep]
    cases env.postResult <;> intro sp rp hr <;> simp_all
  case confirmMode.bookIntent =>
    simp only [dispatch, bookStep]
    cases env.postResult <;> intro sp rp hr <;> simp_all

/-- The session states the platform can actually hand back to a later
invocation: the fresh session with every attribute undefined, and any
state produced by an invocation whose response kept the session open
(an ':ask' response; ':tell' and ':tellWithCard' close the session, and
a hanging promise produces no persisted response at all). -/
inductive ReachableSession : DialogState → Attrs → Prop where
  | init : ReachableSession .idle {}
  | step (st : DialogState) (a : Attrs) (i : Intent) (env : Env)
      (sp rp : Option Speech) :
      ReachableSession st a →
      (dispatch st a i env).response = some (.ask sp rp) →
      ReachableSession (dispatch st a i env).state (dispatch st a i env).attrs

/-- C4: in every reachable session state the booking attribute group
(ownerAddress, ownerName, roomName, startTime, endTime, duration) is
either entirely set or entirely unset: the resolved-candidate path
writes all six within one invocation before its prompt, and the
start-over reset clears all six within one invocation. -/
theorem session_group_atomic (st : DialogState) (a : Attrs)
    (h : ReachableSession st a) : groupAtomic a := by
  induction h with
  | init =>
    right
    simp [groupAllUnset]
  | step st a i env sp rp hr hresp ih =>
    exact dispatch_preserves_group st a i env ih sp rp hresp

/-- Witness for C4: the fresh session is reachable and satisfies the
invariant with the group entirely unset. -/
theorem session_group_atomic_witness : groupAtomic ({} : Attrs) :=
  session_group_atomic .idle {} ReachableSession.init

/-- A session mid-confirmation with the whole booking group set, for
concrete evaluations. -/
def attrsFull : Attrs :=
  { ownerAddress := some "one@example.com",
    ownerName := some "Owner One",
    roomName := some "Room 1",
    startTime := some "ISO:1000",
    endTime := some "ISO:1801000",
    duration := some 30,
    speechOutput := some (.roomAvailable (some "Room 1")),
    repromptSpeech := some (.roomAvailableReprompt (some "Room 1")) }

/-- A sample environment for concrete evaluations. -/
def envSample : Env := ⟨1000, .ok [cal1, cal2], [(cal1, .events [])], .ok ()⟩

/-- C5 counterexample: the restart intent received mid-confirmation.
The claim requires a transition into the duration-collection state
(TIMEMODE) re-dispatching the start-booking action; emitStartOver
instead sets the state back to the empty fresh-session state and
re-emits LaunchRequest, so the session lands in the idle state with the
welcome prompt, not in TIMEMODE with the duration prompt. -/
theorem startOver_lands_in_idle_counterexample :
    (dispatch .confirmMode attrsFull .startOverIntent envSample).state = .idle ∧
    (dispatch .confirmMode attrsFull .startOverIntent envSample).state ≠ .timeMode ∧
    (dispatch .confirmMode attrsFull .startOverIntent envSample).response =
      some (.ask (some .welcome) (some .welcomeReprompt)) ∧
    (dispatch .confirmMode attrsFull .startOverIntent envSample).response ≠
      some (.ask (some .timeDuration) (some .timeDurationReprompt)) := by
  refine ⟨rfl, by decide, rfl, by decide⟩

/-- C5 amended: in TIMEMODE and CONFIRMMODE the restart intent clears
every booking-related session attribute and returns the session to the
fresh idle state, re-dispatching the launch action (the welcome prompt)
rather than the start-booking action; in the idle state the restart
intent has no handler and falls back to the generic unhandled prompt,
leaving the attributes unchanged apart from the stored speech pair. -/
theorem startOver_resets_and_relaunches (st : DialogState) (a : Attrs) (env : Env)
    (h : st = .timeMode ∨ st = .confirmMode) :
    dispatch st a .startOverIntent env =
      ⟨.idle,
       { speechOutput := some .welcome, repromptSpeech := some .welcomeReprompt },
       some (.ask (some .welcome) (some .welcomeReprompt)), []⟩ ∧
    dispatch .idle a .startOverIntent env =
      askStep .idle a (some .unhandledMessage) (some .unhandledReprompt) := by
  rcases h with h | h <;> subst h <;> exact ⟨rfl, rfl⟩

/-- Witness for C5 amended, from TIMEMODE with a fully set group. -/
theorem startOver_resets_and_relaunches_witness :
    dispatch .timeMode attrsFull .startOverIntent envSample =
      ⟨.idle,
       { speechOutput := some .welcome, repromptSpeech := some .welcomeReprompt },
       some (.ask (some .welcome) (some .welcomeReprompt)), []⟩ :=
  (startOver_resets_and_relaunches .timeMode attrsFull envSample (Or.inl rfl)).1
